import Mathlib

/-!
Shallow embedding of the Pacelab LMS web frontend (the parts relevant to the
verified properties): the video player's progress tick, resume-on-ready logic,
YouTube id parsing, domain lock, the auth context's bootstrap and login, the
navbar's navigation items, the dashboard's aggregate stats, and the player
initialization polling state machine.

Numbers that the browser represents as floating point are modelled as exact
rationals; JS `undefined`/`null` and absent fields are modelled with `Option`.
-/

/- ### Embeddings of JS string builtins used by the code -/

/-- Whitespace characters removed by JS `String.prototype.trim`
(the ASCII ones plus NBSP; the code only ever trims ids and emails). -/
def jsWhitespaceChar (c : Char) : Bool :=
  c == ' ' || c == '\t' || c == '\n' || c == '\r' ||
  c == Char.ofNat 11 || c == Char.ofNat 12 || c == Char.ofNat 0xA0

/-- JS `s.trim()`. -/
def jsTrim (s : String) : String :=
  String.mk (((s.toList.dropWhile jsWhitespaceChar).reverse.dropWhile jsWhitespaceChar).reverse)

/-- JS `s.toLowerCase()` (ASCII case mapping; the code compares email
addresses and fixed ASCII constants). -/
def jsToLower (s : String) : String :=
  String.mk (s.toList.map Char.toLower)

/-- JS `s.endsWith(suffix)`. -/
def jsEndsWith (s suffix : String) : Bool :=
  suffix.toList.isSuffixOf s.toList

/- ### video-player.tsx : parseYouTubeId -/

/-- One character of the class `[a-zA-Z0-9_-]`. -/
def ytAllowedChar (c : Char) : Bool :=
  c.isAlphanum || c == '_' || c == '-'

/-- JS `/^[a-zA-Z0-9_-]{11}$/.test s`. -/
def isYTIdStr (s : String) : Bool :=
  s.toList.length == 11 && s.toList.all ytAllowedChar

/-- JS `s.replace(/^"+|"+$/g, "")`: strip leading and trailing double quotes. -/
def stripEdgeQuotes (s : String) : String :=
  String.mk (((s.toList.dropWhile (fun c => c == '"')).reverse.dropWhile
    (fun c => c == '"')).reverse)

/-- The pieces of a parsed URL that `parseYouTubeId` inspects:
`u.searchParams.get("v")` and `u.pathname`. -/
structure UrlParts where
  vParam : Option String
  pathname : String
deriving DecidableEq, Repr

/-- Return the first candidate that passes the 11-character id test, mirroring
the early-return chain of the source. -/
def firstYTHit : List (Option String) → Option String
  | [] => none
  | c :: rest =>
    match c with
    | some s => if isYTIdStr s then some s else firstYTHit rest
    | none => firstYTHit rest

/-- `parseYouTubeId` from video-player.tsx. The browser URL constructor is a
parameter `urlParse` (returning `none` when `new URL` throws); `input = none`
models `null`/`undefined` and the empty string is falsy in the `!input` check. -/
def parseYouTubeId (urlParse : String → Option UrlParts)
    (input : Option String) : Option String :=
  match input with
  | none => none
  | some raw =>
    if raw == "" then none
    else
      let trimmed := stripEdgeQuotes (jsTrim raw)
      if isYTIdStr trimmed then some trimmed
      else
        match urlParse trimmed with
        | none => none
        | some u =>
          let segs := (u.pathname.splitOn "/").filter (fun s => !(s == ""))
          let ei := segs.findIdx (fun s => s == "embed")
          let si := segs.findIdx (fun s => s == "shorts")
          firstYTHit
            [ u.vParam,
              if ei < segs.length then some (segs.getD (ei + 1) "") else none,
              if si < segs.length then some (segs.getD (si + 1) "") else none,
              segs.getLast? ]

/- ### video-player.tsx : domain lock -/

/-- The fixed allowlist `ALLOWED_HOSTS`. -/
def ALLOWED_HOSTS : List String :=
  ["pacelab-lms-web.vercel.app", "lms.pacelab.in", "localhost", "127.0.0.1"]

/-- `isAllowedHost` from video-player.tsx. -/
def isAllowedHost (hostname : String) : Bool :=
  if hostname == "" then false
  else if jsEndsWith hostname ".vercel.app" then true
  else ALLOWED_HOSTS.contains hostname

/- ### video-player.tsx : progress interval -/

/-- Delay in milliseconds passed to `window.setInterval` in
`startProgressInterval`. -/
def PROGRESS_INTERVAL_MS : Nat := 1000

/-- The player readings taken on a tick; `none` models an absent/null value
(the `?? 0` fallbacks). -/
structure PlayerReadings where
  currentTimeReading : Option ℚ
  durationReading : Option ℚ
deriving DecidableEq, Repr

/-- The payload handed to `onProgress` on each tick. -/
structure ProgressEvent where
  currentTime : ℚ
  duration : ℚ
  completed : Bool
deriving DecidableEq, Repr

/-- Body of the `setInterval` callback in `startProgressInterval`: when the
player (with its reading methods) is absent the tick returns without emitting;
otherwise it reads `current` and `total` and emits the progress event with
`completed = total > 0 && current / total >= 0.95`. -/
def progressTick (player : Option PlayerReadings) : Option ProgressEvent :=
  match player with
  | none => none
  | some r =>
    let current := r.currentTimeReading.getD 0
    let total := r.durationReading.getD 0
    some ⟨current, total, decide (0 < total) && decide ((95 : ℚ) / 100 ≤ current / total)⟩

/- ### video-player.tsx : resume position on player ready -/

/-- Key under which the player persists the resume position. -/
def storageKey (lessonId : String) : String := "vp:" ++ lessonId

/-- Result of `JSON.parse(saved)` projected on the `t` field: the parse threw,
or `t` is not a number (`typeof t === "number"` fails), or `t` is the number. -/
inductive SavedParse where
  | parseError : SavedParse
  | notNum : SavedParse
  | num : ℚ → SavedParse
deriving DecidableEq, Repr

/-- The resume logic in `onPlayerReady`: `saved = none` models
`localStorage.getItem` returning `null` (and `saved = some ""` is falsy);
the result is `some t` exactly when a seek to `t` is performed, `none` when
playback stays at the start. `d` is the duration reported at ready time. -/
def resumeOnReady (saved : Option String) (parse : String → SavedParse)
    (d : ℚ) : Option ℚ :=
  match saved with
  | none => none
  | some s =>
    if s == "" then none
    else
      match parse s with
      | SavedParse.num t =>
        if decide (0 < t) && decide (t < d - 5) then some t else none
      | _ => none

/- ### video-player.tsx : init polling state machine -/

/-- Delay in milliseconds passed to `window.setInterval` for the init poll. -/
def POLL_INTERVAL_MS : Nat := 100

/-- Environment observed by a timer callback when it runs: whether the
component is mounted, the host element exists and is attached to the live DOM,
and `window.YT.Player` is loaded. -/
structure InitEnv where
  mounted : Bool
  hostAttached : Bool
  apiLoaded : Bool
deriving DecidableEq, Repr

/-- Events of the init effect run, in event-loop order: a tick of the 100 ms
poll interval, or the run of a `requestAnimationFrame` callback scheduled by
`tryInit`. -/
inductive InitEvent where
  | pollTick : InitEnv → InitEvent
  | rafRun : InitEnv → InitEvent
deriving DecidableEq, Repr

/-- State of one init effect run: the `playerInitRef` guard, whether the poll
interval is still installed, how many rAF callbacks are pending, and how many
times `initPlayer` has been entered (modelled on its success path). -/
structure InitState where
  playerInit : Bool
  pollActive : Bool
  pendingRafs : Nat
  initCount : Nat
deriving DecidableEq, Repr

/-- State at the start of an effect run: guard cleared, poll installed. -/
def initStart : InitState :=
  { playerInit := false, pollActive := true, pendingRafs := 0, initCount := 0 }

/-- One event of the init effect run. A poll tick runs `tryInit` (which
schedules a rAF only when mounted, the guard is clear, the host is attached
and the API is loaded) and then clears the interval if the guard is set. A
rAF run re-checks the guard and the host before setting the guard and
initializing the player. -/
def initStep (s : InitState) : InitEvent → InitState
  | InitEvent.pollTick e =>
    if s.pollActive then
      let s1 :=
        if e.mounted && !s.playerInit && e.hostAttached && e.apiLoaded then
          { s with pendingRafs := s.pendingRafs + 1 }
        else s
      if s1.playerInit then { s1 with pollActive := false } else s1
    else s
  | InitEvent.rafRun e =>
    if s.pendingRafs > 0 then
      let s1 := { s with pendingRafs := s.pendingRafs - 1 }
      if !s.playerInit && e.hostAttached then
        { s1 with playerInit := true, initCount := s1.initCount + 1 }
      else s1
    else s

/-- Run a whole sequence of events from a state. -/
def initRun (evs : List InitEvent) (s : InitState) : InitState :=
  evs.foldl initStep s

/- ### auth context (part_002) : data model -/

/-- `Role` from the auth context. -/
inductive Role where
  | ADMIN : Role
  | INSTRUCTOR : Role
  | STUDENT : Role
deriving DecidableEq, Repr

/-- The `User` interface. -/
structure UserRec where
  id : String
  email : String
  name : Option String
  firstName : Option String
  role : Role
deriving DecidableEq, Repr

/-- A user record together with its session token (`User & { token: string }`). -/
structure AuthUser where
  id : String
  email : String
  name : Option String
  firstName : Option String
  role : Role
  token : String
deriving DecidableEq, Repr

/-- `{ ...me, token }`. -/
def withToken (me : UserRec) (token : String) : AuthUser :=
  { id := me.id, email := me.email, name := me.name, firstName := me.firstName,
    role := me.role, token := token }

/-- The persisted-storage slot for the token together with the current user. -/
structure AuthState where
  storage : Option String
  user : Option AuthUser
deriving DecidableEq, Repr

/- ### auth context (part_002) : bootstrap effect -/

/-- Outcome of the bootstrap effect: the user that was set, the storage slot
afterwards, whether a network request to `/auth/me` was issued, and the final
`loading` flag. -/
structure BootResult where
  user : Option AuthUser
  storage : Option String
  fetched : Bool
  loading : Bool
deriving DecidableEq, Repr

/-- The bootstrap effect of `AuthProvider`: read the token from storage; if
absent, stop loading without a request; otherwise verify it against
`/auth/me` (`verify` models the fetch: `Except.error ()` covers a non-ok
response — `throw new Error('invalid')` — and a thrown fetch error alike). -/
def bootstrapAuth (stored : Option String)
    (verify : String → Except Unit UserRec) : BootResult :=
  match stored with
  | none => { user := none, storage := none, fetched := false, loading := false }
  | some token =>
    match verify token with
    | Except.ok me =>
      { user := some (withToken me token), storage := some token,
        fetched := true, loading := false }
    | Except.error _ =>
      { user := none, storage := none, fetched := true, loading := false }

/- ### auth context (part_002) : login -/

/-- `DUMMY_ADMIN.email`. -/
def DUMMY_ADMIN_email : String := "admin@pacelab.in"

/-- `DUMMY_ADMIN.password`. -/
def DUMMY_ADMIN_password : String := "Password123@"

/-- `DUMMY_ADMIN.token`. -/
def DUMMY_ADMIN_token : String := "dummy-token-admin"

/-- `DUMMY_ADMIN.user`. -/
def DUMMY_ADMIN_user : UserRec :=
  { id := "dummy-admin", email := "admin@pacelab.in", name := some "Admin",
    firstName := none, role := Role.ADMIN }

/-- The dummy-admin check at the top of `login`:
`email.trim().toLowerCase() === DUMMY_ADMIN.email.toLowerCase() &&
password === DUMMY_ADMIN.password`. -/
def dummyCond (email password : String) : Bool :=
  jsToLower (jsTrim email) == jsToLower DUMMY_ADMIN_email &&
  password == DUMMY_ADMIN_password

/-- The JSON body of a successful `/auth/login` response: the token fields
(`data.access_token ?? data.token`), the optional embedded `data.user`, and
the flat fallback fields. -/
structure LoginOkData where
  access_token : Option String
  token : Option String
  user : Option UserRec
  id : String
  email : String
  name : Option String
  firstName : Option String
  role : Role
deriving DecidableEq, Repr

/-- A backend response to `/auth/login`: ok with a JSON body, or non-ok with
the parsed `message` field (`none` when the body could not be parsed or has
no `message`). -/
inductive BackendResp where
  | ok : LoginOkData → BackendResp
  | notOk : Option String → BackendResp
deriving DecidableEq, Repr

/-- `let msg = 'Login failed'; try { msg = (await res.json()).message || msg }`:
an empty parsed message is falsy and keeps the fallback. -/
def loginErrMsg (m : Option String) : String :=
  match m with
  | some s => if s == "" then "Login failed" else s
  | none => "Login failed"

instance : DecidableEq (Except String AuthUser) := fun x y =>
  match x, y with
  | Except.ok a, Except.ok b =>
    if h : a = b then isTrue (by rw [h]) else isFalse (by simp [h])
  | Except.error a, Except.error b =>
    if h : a = b then isTrue (by rw [h]) else isFalse (by simp [h])
  | Except.ok _, Except.error _ => isFalse (by simp)
  | Except.error _, Except.ok _ => isFalse (by simp)

/-- Result of a `login` call: the auth state afterwards, the returned user or
the thrown error message, and whether the backend was contacted. -/
structure LoginResult where
  state : AuthState
  outcome : Except String AuthUser
  backendCalled : Bool
deriving DecidableEq, Repr

/-- `login` from the auth context. On the dummy path the fixed token and user
are stored without any fetch. Otherwise the backend is contacted: a non-ok
response throws and leaves the state untouched; an ok response extracts
`token` (JS stores the string "undefined" when both fields are absent) and
the user record, persists the token and sets the user. -/
def login (email password : String) (resp : BackendResp)
    (st : AuthState) : LoginResult :=
  if dummyCond email password then
    let authUser := withToken DUMMY_ADMIN_user DUMMY_ADMIN_token
    { state := { storage := some DUMMY_ADMIN_token, user := some authUser },
      outcome := Except.ok authUser, backendCalled := false }
  else
    match resp with
    | BackendResp.notOk m =>
      { state := st, outcome := Except.error (loginErrMsg m), backendCalled := true }
    | BackendResp.ok data =>
      let token := (data.access_token.orElse (fun _ => data.token)).getD "undefined"
      let me := data.user.getD
        { id := data.id, email := data.email, name := data.name,
          firstName := data.firstName, role := data.role }
      let authUser := withToken me token
      { state := { storage := some token, user := some authUser },
        outcome := Except.ok authUser, backendCalled := true }

/- ### navbar.tsx : navigation items -/

/-- One navigation link. -/
structure NavItem where
  href : String
  label : String
deriving DecidableEq, Repr

/-- `getNavigationItems` from navbar.tsx. -/
def getNavigationItems (user : Option AuthUser) : List NavItem :=
  match user with
  | none => [{ href := "/courses", label := "Courses" }]
  | some u =>
    if u.role = Role.ADMIN ∨ u.role = Role.INSTRUCTOR then
      [{ href := "/admin/users", label := "Users" },
       { href := "/admin/courses", label := "Courses" }]
    else
      [{ href := "/dashboard", label := "Courses" }]

/- ### dashboard (part_003) : aggregate stats -/

/-- A fetched course as the stats code reads it: `progress` is `some p` when
it is a finite number, `none` when missing/NaN/infinite; `completedLessons`
is `none` when missing (the `|| 0` fallback). -/
structure Course where
  progress : Option ℚ
  completedLessons : Option Nat
deriving DecidableEq, Repr

/-- The four aggregate stats shown on the dashboard. -/
structure DashStats where
  totalCourses : Nat
  completedCourses : Nat
  averageProgress : ℚ
  totalLessons : Nat
deriving DecidableEq, Repr

/-- The `useMemo` stats computation of the dashboard page: count of courses,
count of courses with `progress === 100`, average of the finite progresses
over `totalCourses || 1`, and sum of `completedLessons || 0`. -/
def dashboardStats (courses : List Course) : DashStats :=
  let totalCourses := courses.length
  let completedCourses := (courses.filter (fun c => c.progress == some 100)).length
  let averageProgress :=
    (courses.foldl (fun acc c => acc + c.progress.getD 0) 0)
    / (if totalCourses == 0 then (1 : ℚ) else (totalCourses : ℚ))
  let totalLessons :=
    courses.foldl (fun acc c => acc + c.completedLessons.getD 0) 0
  { totalCourses := totalCourses, completedCourses := completedCourses,
    averageProgress := averageProgress, totalLessons := totalLessons }

/- ### Theorems -/

/-- C1: while the progress interval is active, the player emits a progress
event on a fixed 1000 ms cadence (one event per tick of the 1000 ms interval
whenever the player is available), and each emitted event has
`completed = true` iff the reported duration is strictly positive and
`currentTime / duration >= 0.95`; whenever `duration <= 0` or the ratio is
below 0.95, `completed = false`. -/
theorem progress_tick_cadence_and_completion :
    PROGRESS_INTERVAL_MS = 1000 ∧
    (∀ r : PlayerReadings, (progressTick (some r)).isSome = true) ∧
    (∀ (r : PlayerReadings) (ev : ProgressEvent), progressTick (some r) = some ev →
      ((ev.completed = true ↔
          0 < ev.duration ∧ (95 : ℚ) / 100 ≤ ev.currentTime / ev.duration) ∧
        ((ev.duration ≤ 0 ∨ ev.currentTime / ev.duration < (95 : ℚ) / 100) →
          ev.completed = false))) := by
  refine ⟨rfl, fun r => rfl, ?_⟩
  intro r ev hev
  simp only [progressTick, Option.some.injEq] at hev
  subst hev
  refine ⟨by simp [Bool.and_eq_true, decide_eq_true_eq], ?_⟩
  intro hbad
  rw [← Bool.not_eq_true]
  intro htrue
  simp only [Bool.and_eq_true, decide_eq_true_eq] at htrue
  rcases htrue with ⟨h1, h2⟩
  rcases hbad with hbad | hbad
  · exact absurd h1 (not_lt.mpr hbad)
  · exact absurd h2 (not_le.mpr hbad)

/-- Witness for C1 at a concrete tick: 95 s of a 100 s video is completed. -/
theorem progress_tick_cadence_and_completion_witness :
    ((⟨(95 : ℚ), (100 : ℚ), true⟩ : ProgressEvent).completed = true ↔
      0 < ((⟨(95 : ℚ), (100 : ℚ), true⟩ : ProgressEvent)).duration ∧
        (95 : ℚ) / 100 ≤
          ((⟨(95 : ℚ), (100 : ℚ), true⟩ : ProgressEvent)).currentTime /
            ((⟨(95 : ℚ), (100 : ℚ), true⟩ : ProgressEvent)).duration) :=
  (progress_tick_cadence_and_completion.2.2 ⟨some 95, some 100⟩
    ⟨95, 100, true⟩ (by simp [progressTick])).1

/-- C2: on player ready, the saved position (under key `vp:` + lessonId) is
applied via a seek iff the parsed `t` is a number with `t > 0` and
`t < duration - 5`; every other saved value leaves playback at the start. -/
theorem resume_on_ready_seek_iff :
    (∀ lessonId, storageKey lessonId = "vp:" ++ lessonId) ∧
    ∀ (saved : Option String) (parse : String → SavedParse) (d t : ℚ),
      resumeOnReady saved parse d = some t ↔
        ∃ s, saved = some s ∧ s ≠ "" ∧ parse s = SavedParse.num t ∧
          0 < t ∧ t < d - 5 := by
  refine ⟨fun _ => rfl, ?_⟩
  intro saved parse d t
  cases saved with
  | none => simp [resumeOnReady]
  | some s =>
    by_cases hs : s = ""
    · subst hs
      simp [resumeOnReady]
    · have hb : (s == "") = false := beq_eq_false_iff_ne.mpr hs
      cases hp : parse s with
      | parseError => simp [resumeOnReady, hb, hp, hs]
      | notNum => simp [resumeOnReady, hb, hp, hs]
      | num q =>
        constructor
        · intro h
          by_cases hq1 : (0 : ℚ) < q
          · by_cases hq2 : q < d - 5
            · simp [resumeOnReady, hb, hp, hq1, hq2] at h
              subst h
              exact ⟨s, rfl, hs, hp, hq1, hq2⟩
            · simp [resumeOnReady, hb, hp, hq2] at h
          · simp [resumeOnReady, hb, hp, hq1] at h
        · rintro ⟨s2, hseq, hne, hparse, ht1, ht2⟩
          have hss : s2 = s := by
            injection hseq with hx
            exact hx.symm
          subst hss
          rw [hp] at hparse
          injection hparse with hqt
          subst hqt
          simp [resumeOnReady, hb, hp, ht1, ht2]

/-- C3: auth bootstrap — no stored token: user stays null, loading ends, no
request; stored token failing verification: token removed, user null; stored
token verifying: user set to the fetched record combined with the token. -/
theorem bootstrap_auth_cases :
    ∀ verify : String → Except Unit UserRec,
      (bootstrapAuth none verify =
        { user := none, storage := none, fetched := false, loading := false }) ∧
      (∀ tok, verify tok = Except.error () →
        bootstrapAuth (some tok) verify =
          { user := none, storage := none, fetched := true, loading := false }) ∧
      (∀ tok me, verify tok = Except.ok me →
        bootstrapAuth (some tok) verify =
          { user := some (withToken me tok), storage := some tok,
            fetched := true, loading := false }) := by
  intro verify
  refine ⟨rfl, ?_, ?_⟩
  · intro tok hv
    simp [bootstrapAuth, hv]
  · intro tok me hv
    simp [bootstrapAuth, hv]

/-- Witness for C3: the three bootstrap cases at concrete inputs. -/
theorem bootstrap_auth_cases_witness :
    bootstrapAuth none (fun _ => Except.error ()) =
      { user := none, storage := none, fetched := false, loading := false } ∧
    bootstrapAuth (some "tok") (fun _ => Except.error ()) =
      { user := none, storage := none, fetched := true, loading := false } ∧
    bootstrapAuth (some "tok")
        (fun _ => Except.ok ⟨"u1", "u1@x.io", none, none, Role.STUDENT⟩) =
      { user := some (withToken ⟨"u1", "u1@x.io", none, none, Role.STUDENT⟩ "tok"),
        storage := some "tok", fetched := true, loading := false } :=
  ⟨(bootstrap_auth_cases _).1,
   (bootstrap_auth_cases _).2.1 "tok" rfl,
   (bootstrap_auth_cases _).2.2 "tok" _ rfl⟩

/-- C4: a non-dummy login with a non-ok backend response throws (the parsed
nonempty server message, else "Login failed") and leaves the auth state
unchanged: nothing is written to storage and the user is not modified. -/
theorem login_non_ok_throws_and_preserves_state :
    ∀ (email password : String) (m : Option String) (st : AuthState),
      dummyCond email password = false →
      ((login email password (BackendResp.notOk m) st).state = st ∧
        (login email password (BackendResp.notOk m) st).backendCalled = true ∧
        (∀ s, m = some s → s ≠ "" →
          (login email password (BackendResp.notOk m) st).outcome =
            Except.error s) ∧
        ((m = none ∨ m = some "") →
          (login email password (BackendResp.notOk m) st).outcome =
            Except.error "Login failed")) := by
  intro email password m st hd
  refine ⟨by simp [login, hd], by simp [login, hd], ?_, ?_⟩
  · intro s hm hne
    subst hm
    have hb : (s == "") = false := beq_eq_false_iff_ne.mpr hne
    simp [login, hd, loginErrMsg, hb]
  · intro hm
    rcases hm with hm | hm <;> subst hm <;> simp [login, hd, loginErrMsg]

/-- Witness for C4 at a concrete failed login attempt. -/
theorem login_non_ok_witness :
    (login "user@example.com" "pw" (BackendResp.notOk none)
        { storage := none, user := none }).state =
      { storage := none, user := none } ∧
    (login "user@example.com" "pw" (BackendResp.notOk none)
        { storage := none, user := none }).outcome =
      Except.error "Login failed" := by
  have h := login_non_ok_throws_and_preserves_state "user@example.com" "pw" none
    { storage := none, user := none } (by decide)
  exact ⟨h.1, h.2.2.2 (Or.inl rfl)⟩

/-- C5: the navbar links are a total function of the session: no user gives
exactly Courses → /courses; an ADMIN or INSTRUCTOR gives exactly
Users → /admin/users then Courses → /admin/courses; every other logged-in
user (STUDENT) gives exactly Courses → /dashboard. -/
theorem navigation_items_by_role :
    getNavigationItems none = [{ href := "/courses", label := "Courses" }] ∧
    (∀ u : AuthUser, u.role = Role.ADMIN ∨ u.role = Role.INSTRUCTOR →
      getNavigationItems (some u) =
        [{ href := "/admin/users", label := "Users" },
         { href := "/admin/courses", label := "Courses" }]) ∧
    (∀ u : AuthUser, u.role = Role.STUDENT →
      getNavigationItems (some u) =
        [{ href := "/dashboard", label := "Courses" }]) := by
  refine ⟨rfl, ?_, ?_⟩
  · intro u hu
    simp only [getNavigationItems]
    rw [if_pos hu]
  · intro u hu
    have hno : ¬(u.role = Role.ADMIN ∨ u.role = Role.INSTRUCTOR) := by
      rw [hu]
      rintro (h | h) <;> exact Role.noConfusion h
    simp only [getNavigationItems]
    rw [if_neg hno]

/-- Witness for C5: the admin and student navigation lists at concrete users. -/
theorem navigation_items_witness :
    getNavigationItems (some (withToken DUMMY_ADMIN_user "t")) =
      [{ href := "/admin/users", label := "Users" },
       { href := "/admin/courses", label := "Courses" }] ∧
    getNavigationItems (some { id := "s1", email := "s1@x.io", name := none,
                               firstName := none, role := Role.STUDENT,
                               token := "t" }) =
      [{ href := "/dashboard", label := "Courses" }] :=
  ⟨navigation_items_by_role.2.1 _ (Or.inl rfl),
   navigation_items_by_role.2.2 _ rfl⟩

/-- C8: exactly the credential pairs whose trimmed lowercased email is
"admin@pacelab.in" with password "Password123@" take the hard-coded path:
no backend call, the fixed token "dummy-token-admin" stored, and a returned
user with role ADMIN and id "dummy-admin". -/
theorem dummy_admin_login_path :
    ∀ (email password : String) (resp : BackendResp) (st : AuthState),
      ((login email password resp st).backendCalled = false ↔
        (jsToLower (jsTrim email) = "admin@pacelab.in" ∧
          password = "Password123@")) ∧
      ((jsToLower (jsTrim email) = "admin@pacelab.in" ∧
          password = "Password123@") →
        login email password resp st =
          { state := { storage := some "dummy-token-admin",
                       user := some { id := "dummy-admin",
                                      email := "admin@pacelab.in",
                                      name := some "Admin",
                                      firstName := none,
                                      role := Role.ADMIN,
                                      token := "dummy-token-admin" } },
            outcome := Except.ok { id := "dummy-admin",
                                   email := "admin@pacelab.in",
                                   name := some "Admin",
                                   firstName := none,
                                   role := Role.ADMIN,
                                   token := "dummy-token-admin" },
            backendCalled := false }) := by
  intro email password resp st
  have hlow : jsToLower DUMMY_ADMIN_email = "admin@pacelab.in" := by decide
  have hcond : dummyCond email password = true ↔
      (jsToLower (jsTrim email) = "admin@pacelab.in" ∧
        password = "Password123@") := by
    simp [dummyCond, hlow, DUMMY_ADMIN_password, Bool.and_eq_true, beq_iff_eq]
  constructor
  · by_cases hd : dummyCond email password = true
    · simp only [login, hd, if_true]
      simp [hcond.mp hd]
    · have hx : dummyCond email password = false := by
        rw [← Bool.not_eq_true]
        exact hd
      constructor
      · intro hbc
        exfalso
        cases resp <;> simp [login, hx] at hbc
      · intro hpr
        exact absurd (hcond.mpr hpr) hd
  · intro hpr
    have hd := hcond.mpr hpr
    simp [login, hd, withToken, DUMMY_ADMIN_user, DUMMY_ADMIN_token]

/-- Witness for C8: a dummy-admin login at a concrete credential pair with
surrounding whitespace and mixed case. -/
theorem dummy_admin_login_witness :
    login "  ADMIN@pacelab.in" "Password123@" (BackendResp.notOk none)
        { storage := none, user := none } =
      { state := { storage := some "dummy-token-admin",
                   user := some { id := "dummy-admin",
                                  email := "admin@pacelab.in",
                                  name := some "Admin",
                                  firstName := none,
                                  role := Role.ADMIN,
                                  token := "dummy-token-admin" } },
        outcome := Except.ok { id := "dummy-admin",
                               email := "admin@pacelab.in",
                               name := some "Admin",
                               firstName := none,
                               role := Role.ADMIN,
                               token := "dummy-token-admin" },
        backendCalled := false } :=
  (dummy_admin_login_path "  ADMIN@pacelab.in" "Password123@"
    (BackendResp.notOk none) { storage := none, user := none }).2
    ⟨by decide, rfl⟩

/-- C10: the domain lock rejects the empty hostname, accepts every hostname
ending in ".vercel.app" regardless of the allowlist, and otherwise accepts
exactly the members of the fixed allowed-hosts set. -/
theorem allowed_host_spec :
    isAllowedHost "" = false ∧
    (∀ h : String, jsEndsWith h ".vercel.app" = true → isAllowedHost h = true) ∧
    (∀ h : String, h ≠ "" → jsEndsWith h ".vercel.app" = false →
      (isAllowedHost h = true ↔ h ∈ ALLOWED_HOSTS)) := by
  refine ⟨rfl, ?_, ?_⟩
  · intro h hend
    by_cases he : h = ""
    · subst he
      exact absurd hend (by decide)
    · have hb : (h == "") = false := beq_eq_false_iff_ne.mpr he
      simp [isAllowedHost, hb, hend]
  · intro h hne hend
    have hb : (h == "") = false := beq_eq_false_iff_ne.mpr hne
    simp only [isAllowedHost, hb, Bool.false_eq_true, if_false, hend]
    exact List.elem_iff

/-- Witness for C10: a non-allowlisted vercel host passes; an allowlisted
plain host agrees with list membership. -/
theorem allowed_host_witness :
    isAllowedHost "foo.vercel.app" = true ∧
    (isAllowedHost "lms.pacelab.in" = true ↔
      "lms.pacelab.in" ∈ ALLOWED_HOSTS) :=
  ⟨allowed_host_spec.2.1 "foo.vercel.app" (by decide),
   allowed_host_spec.2.2 "lms.pacelab.in" (by decide) (by decide)⟩

/-- Folding addition over a list equals the initial value plus the sum of the
mapped list. -/
theorem list_foldl_add_eq {α M : Type} [AddCommMonoid M] (f : α → M) :
    ∀ (l : List α) (a : M),
      l.foldl (fun acc c => acc + f c) a = a + (l.map f).sum := by
  intro l
  induction l with
  | nil => intro a; simp
  | cons c t ih =>
    intro a
    simp only [List.foldl_cons, List.map_cons, List.sum_cons, ih, add_assoc]

/-- The divisor `totalCourses || 1` as a rational equals `max 1 totalCourses`. -/
theorem nat_divisor_eq_max (n : Nat) :
    (if (n == 0) = true then (1 : ℚ) else (n : ℚ)) = max 1 (n : ℚ) := by
  cases n with
  | zero => simp
  | succ k =>
    have hb : ((k + 1 == 0) = true) = False := by simp
    rw [if_neg (by simp)]
    exact (max_eq_right (Nat.one_le_cast.mpr (Nat.succ_le_succ (Nat.zero_le k)))).symm

/-- C7: the dashboard stats are total for every fetched course list — the
empty list yields average 0 (the divisor is never 0), a non-finite progress
contributes 0 to the average, `completedCourses` counts exactly the courses
with progress 100, and `totalLessons` sums `completedLessons` with missing
values as 0. -/
theorem dashboard_stats_total :
    (dashboardStats []).averageProgress = 0 ∧
    ∀ cs : List Course,
      (dashboardStats cs).totalCourses = cs.length ∧
      (dashboardStats cs).completedCourses =
        cs.countP (fun c => c.progress == some 100) ∧
      (dashboardStats cs).totalLessons =
        (cs.map (fun c => c.completedLessons.getD 0)).sum ∧
      (dashboardStats cs).averageProgress =
        (cs.map (fun c => c.progress.getD 0)).sum / max 1 (cs.length : ℚ) := by
  constructor
  · simp [dashboardStats]
  · intro cs
    refine ⟨rfl, ?_, ?_, ?_⟩
    · simp [dashboardStats, List.countP_eq_length_filter]
    · simp only [dashboardStats]
      rw [list_foldl_add_eq, zero_add]
    · simp only [dashboardStats]
      rw [list_foldl_add_eq, zero_add, nat_divisor_eq_max]

/-- A poll tick never changes the init guard or the init count (it only
schedules work and possibly clears the interval). -/
theorem initStep_pollTick_fields (s : InitState) (env : InitEnv) :
    (initStep s (InitEvent.pollTick env)).initCount = s.initCount ∧
    (initStep s (InitEvent.pollTick env)).playerInit = s.playerInit := by
  simp only [initStep]
  split_ifs <;> simp_all

/-- One step preserves the invariant tying the init count to the guard. -/
theorem initStep_inv (s : InitState) (e : InitEvent)
    (h1 : s.initCount ≤ 1) (h2 : s.initCount = 1 ↔ s.playerInit = true) :
    (initStep s e).initCount ≤ 1 ∧
      ((initStep s e).initCount = 1 ↔ (initStep s e).playerInit = true) := by
  cases e with
  | pollTick env =>
    obtain ⟨hic, hpi⟩ := initStep_pollTick_fields s env
    rw [hic, hpi]
    exact ⟨h1, h2⟩
  | rafRun env =>
    simp only [initStep]
    split_ifs with hpend hcond
    · have hpi : s.playerInit = false := by
        have hx := hcond
        simp only [Bool.and_eq_true, Bool.not_eq_true'] at hx
        exact hx.1
      have hc0 : s.initCount = 0 := by
        by_contra hne
        have hone : s.initCount = 1 := by omega
        rw [hpi] at h2
        simpa using h2.mp hone
      simp [hc0]
    · exact ⟨h1, h2⟩
    · exact ⟨h1, h2⟩

/-- The invariant holds along any event sequence. -/
theorem initRun_inv (evs : List InitEvent) :
    ∀ s : InitState, s.initCount ≤ 1 → (s.initCount = 1 ↔ s.playerInit = true) →
      (initRun evs s).initCount ≤ 1 := by
  induction evs with
  | nil => intro s h1 _; exact h1
  | cons e t ih =>
    intro s h1 h2
    obtain ⟨h1e, h2e⟩ := initStep_inv s e h1 h2
    simp only [initRun, List.foldl_cons]
    exact ih (initStep s e) h1e h2e

/-- C6: player initialization is polling-based (100 ms cadence) and happens
at most once per effect run; an init attempt is only scheduled when the
component is mounted, the host is attached and the API is loaded (and the
guard is clear); once the `playerInitRef` guard is set, a rAF run never
initializes again and the next poll tick leaves the interval cleared. -/
theorem init_polling_at_most_once :
    POLL_INTERVAL_MS = 100 ∧
    (∀ evs : List InitEvent, (initRun evs initStart).initCount ≤ 1) ∧
    (∀ (s : InitState) (env : InitEnv),
      (env.mounted = false ∨ env.hostAttached = false ∨ env.apiLoaded = false ∨
        s.playerInit = true) →
      (initStep s (InitEvent.pollTick env)).pendingRafs = s.pendingRafs) ∧
    (∀ (s : InitState) (env : InitEnv), s.playerInit = true →
      (initStep s (InitEvent.rafRun env)).initCount = s.initCount ∧
      (initStep s (InitEvent.rafRun env)).playerInit = true) ∧
    (∀ (s : InitState) (env : InitEnv), s.playerInit = true →
      (initStep s (InitEvent.pollTick env)).pollActive = false) := by
  refine ⟨rfl, ?_, ?_, ?_, ?_⟩
  · intro evs
    exact initRun_inv evs initStart (by decide) (by decide)
  · intro s env hcase
    have hc : (env.mounted && !s.playerInit && env.hostAttached &&
        env.apiLoaded) = false := by
      rcases hcase with h | h | h | h <;> simp [h]
    simp only [initStep, hc]
    split_ifs <;> simp_all
  · intro s env hpi
    simp only [initStep, hpi]
    split_ifs <;> simp_all
  · intro s env hpi
    simp only [initStep, hpi]
    split_ifs with hp <;> simp_all

/-- Witness for C6: a concrete run initializes once; a tick with the
component unmounted schedules nothing; with the guard set a rAF run does not
initialize again and a tick clears the poll. -/
theorem init_polling_at_most_once_witness :
    (initRun [InitEvent.pollTick ⟨true, true, true⟩,
              InitEvent.rafRun ⟨true, true, true⟩,
              InitEvent.pollTick ⟨true, true, true⟩,
              InitEvent.rafRun ⟨true, true, true⟩] initStart).initCount ≤ 1 ∧
    (initStep ⟨false, true, 0, 0⟩
      (InitEvent.pollTick ⟨false, true, true⟩)).pendingRafs = 0 ∧
    (initStep ⟨true, true, 0, 1⟩
      (InitEvent.rafRun ⟨true, true, true⟩)).initCount = 1 ∧
    (initStep ⟨true, true, 0, 1⟩
      (InitEvent.pollTick ⟨true, true, true⟩)).pollActive = false :=
  ⟨init_polling_at_most_once.2.1 _,
   init_polling_at_most_once.2.2.1 ⟨false, true, 0, 0⟩ ⟨false, true, true⟩
     (Or.inl rfl),
   (init_polling_at_most_once.2.2.2.1 ⟨true, true, 0, 1⟩ ⟨true, true, true⟩
     rfl).1,
   init_polling_at_most_once.2.2.2.2 ⟨true, true, 0, 1⟩ ⟨true, true, true⟩ rfl⟩

/-- Dropping while a predicate fails on every element is the identity. -/
theorem list_dropWhile_of_all_neg {α : Type} (p : α → Bool) :
    ∀ l : List α, (∀ c ∈ l, p c = false) → l.dropWhile p = l := by
  intro l h
  cases l with
  | nil => rfl
  | cons a t =>
    have ha : p a = false := h a (List.mem_cons_self a t)
    simp [List.dropWhile_cons, ha]

/-- Characters of the id class are not JS whitespace. -/
theorem ytAllowedChar_not_ws (c : Char) (h : ytAllowedChar c = true) :
    jsWhitespaceChar c = false := by
  cases hx : jsWhitespaceChar c
  · rfl
  · exfalso
    simp only [jsWhitespaceChar, Bool.or_eq_true, beq_iff_eq] at hx
    rcases hx with ((((((h1 | h1) | h1) | h1) | h1) | h1) | h1) <;> subst h1 <;>
      exact absurd h (by decide)

/-- Characters of the id class are not double quotes. -/
theorem ytAllowedChar_not_quote (c : Char) (h : ytAllowedChar c = true) :
    (c == '"') = false := by
  cases hx : (c == '"')
  · rfl
  · exfalso
    have hq : c = '"' := eq_of_beq hx
    subst hq
    exact absurd h (by decide)

/-- A string passing the 11-character id test is untouched by trimming and
quote stripping, and is nonempty. -/
theorem isYTIdStr_fixpoint (r : String) (h : isYTIdStr r = true) :
    jsTrim r = r ∧ stripEdgeQuotes r = r ∧ r ≠ "" := by
  have hsplit := h
  simp only [isYTIdStr, Bool.and_eq_true] at hsplit
  obtain ⟨hlen, hall⟩ := hsplit
  have hall2 : ∀ c ∈ r.toList, ytAllowedChar c = true := by
    intro c hc
    exact List.all_eq_true.mp hall c hc
  have hws : ∀ c ∈ r.toList, jsWhitespaceChar c = false :=
    fun c hc => ytAllowedChar_not_ws c (hall2 c hc)
  have hq : ∀ c ∈ r.toList, (c == '"') = false :=
    fun c hc => ytAllowedChar_not_quote c (hall2 c hc)
  have hwsr : ∀ c ∈ r.toList.reverse, jsWhitespaceChar c = false :=
    fun c hc => hws c (List.mem_reverse.mp hc)
  have hqr : ∀ c ∈ r.toList.reverse, (c == '"') = false :=
    fun c hc => hq c (List.mem_reverse.mp hc)
  have hlen2 : r.toList.length = 11 := beq_iff_eq.mp hlen
  obtain ⟨l⟩ := r
  have hws2 : ∀ c ∈ l, jsWhitespaceChar c = false := hws
  have hq2 : ∀ c ∈ l, (c == '"') = false := hq
  have hwsr2 : ∀ c ∈ l.reverse, jsWhitespaceChar c = false := hwsr
  have hqr2 : ∀ c ∈ l.reverse, (c == '"') = false := hqr
  refine ⟨?_, ?_, ?_⟩
  · show String.mk (((l.dropWhile jsWhitespaceChar).reverse.dropWhile
      jsWhitespaceChar).reverse) = String.mk l
    rw [list_dropWhile_of_all_neg _ _ hws2, list_dropWhile_of_all_neg _ _ hwsr2,
      List.reverse_reverse]
  · show String.mk (((l.dropWhile (fun c => c == '"')).reverse.dropWhile
      (fun c => c == '"')).reverse) = String.mk l
    rw [list_dropWhile_of_all_neg _ _ hq2, list_dropWhile_of_all_neg _ _ hqr2,
      List.reverse_reverse]
  · intro he
    rw [he] at hlen2
    exact absurd hlen2 (by decide)

/-- Every hit of the candidate chain passes the id test. -/
theorem firstYTHit_valid :
    ∀ (cands : List (Option String)) (r : String),
      firstYTHit cands = some r → isYTIdStr r = true := by
  intro cands
  induction cands with
  | nil => intro r h; exact absurd h (by simp [firstYTHit])
  | cons c rest ih =>
    intro r h
    cases c with
    | none => exact ih r h
    | some s =>
      by_cases hid : isYTIdStr s = true
      · have he : firstYTHit (some s :: rest) = some s := by
          simp [firstYTHit, hid]
        rw [he] at h
        injection h with h2
        rw [← h2]
        exact hid
      · have he : firstYTHit (some s :: rest) = firstYTHit rest := by
          simp [firstYTHit, hid]
        rw [he] at h
        exact ih r h

/-- Every non-null result of parseYouTubeId passes the id test. -/
theorem parseYouTubeId_valid (urlParse : String → Option UrlParts)
    (input : Option String) (r : String)
    (h : parseYouTubeId urlParse input = some r) : isYTIdStr r = true := by
  cases input with
  | none => exact absurd h (by simp [parseYouTubeId])
  | some raw =>
    simp only [parseYouTubeId] at h
    by_cases hre : (raw == "") = true
    · rw [if_pos hre] at h
      exact absurd h (by simp)
    · rw [if_neg hre] at h
      by_cases hid : isYTIdStr (stripEdgeQuotes (jsTrim raw)) = true
      · rw [if_pos hid] at h
        injection h with h2
        rw [← h2]
        exact hid
      · rw [if_neg hid] at h
        cases hu : urlParse (stripEdgeQuotes (jsTrim raw)) with
        | none =>
          rw [hu] at h
          exact absurd h (by simp)
        | some u =>
          rw [hu] at h
          exact firstYTHit_valid _ r h

/-- C9: parseYouTubeId is total and canonical on its image: every non-null
result is a string of exactly 11 characters from `[A-Za-z0-9_-]`, and
re-parsing a non-null result returns that same string. -/
theorem parse_youtube_id_canonical :
    ∀ (urlParse : String → Option UrlParts) (input : Option String)
      (r : String),
      parseYouTubeId urlParse input = some r →
      (r.toList.length = 11 ∧ (∀ c ∈ r.toList, ytAllowedChar c = true) ∧
        parseYouTubeId urlParse (some r) = some r) := by
  intro up input r h
  have hid := parseYouTubeId_valid up input r h
  have hsplit := hid
  simp only [isYTIdStr, Bool.and_eq_true] at hsplit
  obtain ⟨hlen, hall⟩ := hsplit
  obtain ⟨htrim, hquote, hne⟩ := isYTIdStr_fixpoint r hid
  refine ⟨beq_iff_eq.mp hlen, ?_, ?_⟩
  · intro c hc
    exact List.all_eq_true.mp hall c hc
  · have hb : (r == "") = false := beq_eq_false_iff_ne.mpr hne
    simp only [parseYouTubeId, hb, Bool.false_eq_true, if_false, htrim,
      hquote, hid, if_true]

/-- Witness for C9: a concrete 11-character id parses to itself. -/
theorem parse_youtube_id_canonical_witness :
    parseYouTubeId (fun _ => none) (some "dQw4w9WgXcQ") =
      some "dQw4w9WgXcQ" :=
  (parse_youtube_id_canonical (fun _ => none) (some "dQw4w9WgXcQ")
    "dQw4w9WgXcQ" (by decide)).2.2
